import Mathlib

/-!
Verification of the Eleventy series-grouping subsystem of
`aaronmaturen/aaronmaturen.github.io` (`.eleventy.js`): the `seriesContent`
collection builder (here `buildGroups`) and the navigation filters
`getSeriesOverview`, `getPreviousInSeries`, `getNextInSeries`.

The embedding follows the JavaScript source:

* `item.data.tags` may be undefined, a single string, or an array of strings
  (front matter such as `tags: posts` yields a single string).
  `tags.includes("series")` is a TypeError when `tags` is undefined,
  substring containment when `tags` is a string, and element membership
  when `tags` is an array.
* `item.data.seriesId && ...` is a JavaScript truthiness test: an absent
  `seriesId` and the empty string are both falsy.
* The sort comparator is `(a.data.part || 0) - (b.data.part || 0)`
  (missing `part` coerces to 0); `Array.prototype.sort` is a stable sort
  (ES2019) and is modelled by the stable `List.insertionSort` — any two
  stable sorts of the same list under the same total preorder agree.
* `item.data.part === part - 1` is strict equality on the raw field: an
  item with no `part` value never matches.
* `allSeries = {}` is a plain object: accessing a key with no own entry
  whose name is an `Object.prototype` property (`"toString"`,
  `"__proto__"`, ...) yields a truthy inherited value, so the
  `if (!allSeries[seriesId])` initialization guard and the
  `if (!seriesItems) return null` guard are both skipped and the
  subsequent `.push` / `.find` throws a TypeError. The `...JS`
  definitions model the raw access with this error path; the plain
  `insertItem` / `lookupGroup` / `buildGroups` / `getPreviousInSeries` /
  `getNextInSeries` describe the non-throwing region, and bridge lemmas
  state exactly where the two agree.
-/

/-- The value of `item.data.tags` in the JavaScript source: absent,
a single string, or an array of strings. -/
inductive TagsVal where
  | undef : TagsVal
  | str (s : String) : TagsVal
  | arr (ls : List String) : TagsVal
deriving DecidableEq, Repr

/-- One content item, as seen by `.eleventy.js` through `item.data`.
`body` stands for the content body, opaque to the subsystem. -/
structure ContentItem where
  seriesId : Option String
  tags : TagsVal
  part : Option Int
  body : String
deriving DecidableEq, Repr

/-- The needle list is a leading segment of the hay list. -/
def leadsWith (needle hay : List Char) : Bool :=
  match needle, hay with
  | [], _ => true
  | _ :: _, [] => false
  | a :: as, b :: bs => a = b && leadsWith as bs

/-- The needle list occurs as a contiguous run inside the hay list. -/
def containsSeq (needle hay : List Char) : Bool :=
  match hay with
  | [] => leadsWith needle []
  | _ :: rest => leadsWith needle hay || containsSeq needle rest

/-- JavaScript `String.prototype.includes`: substring containment. -/
def strIncludes (hay needle : String) : Bool :=
  containsSeq needle.data hay.data

/-- JavaScript `tags.includes(needle)`: a TypeError when `tags` is
undefined, substring containment on a string, membership on an array. -/
def tagsIncludes (t : TagsVal) (needle : String) : Except String Bool :=
  match t with
  | .undef => .error "TypeError: Cannot read properties of undefined (reading includes)"
  | .str s => .ok (strIncludes s needle)
  | .arr ls => .ok (ls.contains needle)

/-- JavaScript truthiness of `item.data.seriesId`: `undefined` and `""`
are falsy, every other string is truthy. -/
def truthySeriesId : Option String → Bool
  | none => false
  | some s => s ≠ ""

/-- The filter predicate of the `seriesContent` collection:
`item.data.seriesId && !item.data.tags.includes("series")`.
Short-circuit: `tags` is only touched when `seriesId` is truthy. -/
def keepItem (it : ContentItem) : Except String Bool :=
  if truthySeriesId it.seriesId then
    match tagsIncludes it.tags "series" with
    | .error e => .error e
    | .ok inc => .ok (!inc)
  else
    .ok false

/-- Model of `Array.prototype.filter` with the fallible predicate `keepItem`:
the first TypeError aborts the build. -/
def filterSeriesItems : List ContentItem → Except String (List ContentItem)
  | [] => .ok []
  | it :: rest =>
    match keepItem it with
    | .error e => .error e
    | .ok keep =>
      match filterSeriesItems rest with
      | .error e => .error e
      | .ok tail => .ok (if keep then it :: tail else tail)

/-- The grouping dictionary `allSeries`: an association list from
seriesId to the group's items, keys in first-insertion order. -/
abbrev Groups := List (String × List ContentItem)

/-- The own-key update behind `allSeries[seriesId].push(item)` (creating
the entry if needed): append `it` to the group of `key`, or add a new
entry at the end. The raw JS access also sees inherited
`Object.prototype` properties; `insertItemJS` models the full fallible
step, and the two agree on keys outside `protoProps`
(`insertItemJS_ok`). -/
def insertItem (gs : Groups) (key : String) (it : ContentItem) : Groups :=
  match gs with
  | [] => [(key, [it])]
  | (k, l) :: rest =>
    if k = key then (k, l ++ [it]) :: rest
    else (k, l) :: insertItem rest key it

/-- The `seriesItems.forEach` grouping loop. Every item reaching this
loop has passed the filter, hence has a truthy (`some`) `seriesId`. -/
def groupBySeries (items : List ContentItem) : Groups :=
  items.foldl
    (fun gs it =>
      match it.seriesId with
      | some s => insertItem gs s it
      | none => gs)
    []

/-- The coercion `a.data.part || 0`: a missing `part` coerces to `0`. -/
def effPart (it : ContentItem) : Int :=
  it.part.getD 0

/-- The per-group comparator `(a.data.part || 0) - (b.data.part || 0)`:
`a` sorts no later than `b` iff the comparator is `≤ 0`. -/
def partLe (a b : ContentItem) : Prop :=
  effPart a ≤ effPart b

instance : DecidableRel partLe := fun a b => by
  unfold partLe; infer_instance

/-- The `Object.keys(allSeries).forEach(... sort ...)` pass: sort each
group ascending by effective part (stable sort, per ES2019). -/
def sortGroups (gs : Groups) : Groups :=
  gs.map (fun kl => (kl.1, kl.2.insertionSort partLe))

/-- The `seriesContent` collection callback on the non-throwing grouping
region: filter, group, sort. `buildGroupsJS` adds the TypeError raised
when a retained item's `seriesId` is an `Object.prototype` name; the
two agree otherwise (`buildGroupsJS_ok_eq`). -/
def buildGroups (items : List ContentItem) : Except String Groups :=
  match filterSeriesItems items with
  | .error e => .error e
  | .ok seriesItems => .ok (sortGroups (groupBySeries seriesItems))

/-- Own-key lookup behind `collections.seriesContent[seriesId]`: the own
value when present, `none` otherwise. The raw JS access also sees
inherited `Object.prototype` properties; `readProp` models it in full,
and the two agree unless the key is absent and listed in `protoProps`
(`readProp_arr_iff`, `readProp_of_none`). -/
def lookupGroup (gs : Groups) (s : String) : Option (List ContentItem) :=
  match gs with
  | [] => none
  | (k, l) :: rest => if k = s then some l else lookupGroup rest s

/-- The `getPreviousInSeries` filter on the non-throwing region: `null`
when the series is unknown, otherwise the first item with
`item.data.part === part - 1`. `getPreviousInSeriesJS` adds the
TypeError path for `Object.prototype`-named ids with no own group. -/
def getPreviousInSeries (part : Int) (seriesId : String) (groups : Groups) :
    Option ContentItem :=
  match lookupGroup groups seriesId with
  | none => none
  | some seriesItems => seriesItems.find? (fun it => it.part = some (part - 1))

/-- The `getNextInSeries` filter on the non-throwing region: `null`
when the series is unknown, otherwise the first item with
`item.data.part === part + 1`. `getNextInSeriesJS` adds the
TypeError path for `Object.prototype`-named ids with no own group. -/
def getNextInSeries (part : Int) (seriesId : String) (groups : Groups) :
    Option ContentItem :=
  match lookupGroup groups seriesId with
  | none => none
  | some seriesItems => seriesItems.find? (fun it => it.part = some (part + 1))

/-- The `getSeriesOverview` filter:
`collections.series.find(item => item.data.seriesId === seriesId)`. -/
def getSeriesOverview (seriesId : String) (overviews : List ContentItem) :
    Option ContentItem :=
  overviews.find? (fun it => it.seriesId = some seriesId)

/-- The retention predicate on the success path: truthy `seriesId` and a
defined `tags` value not including `"series"`. Agrees with `keepItem`
whenever `keepItem` does not raise. -/
def keepB (it : ContentItem) : Bool :=
  truthySeriesId it.seriesId &&
    (match it.tags with
     | .undef => false
     | .str s => !strIncludes s "series"
     | .arr ls => !ls.contains "series")

/-- The property names every plain object (`{}` literal) inherits from
`Object.prototype`: accessing `obj[name]` for one of these, on an object
with no own property of that name, yields a truthy inherited value (a
function, or `Object.prototype` itself for `"__proto__"`) rather than
`undefined`. -/
def protoProps : List String :=
  ["constructor", "hasOwnProperty", "isPrototypeOf", "propertyIsEnumerable",
   "toLocaleString", "toString", "valueOf", "__proto__",
   "__defineGetter__", "__defineSetter__", "__lookupGetter__", "__lookupSetter__"]

/-- The value observed by a raw property access on the grouping
dictionary: an own array, a truthy non-array inherited from
`Object.prototype`, or `undefined`. -/
inductive PropVal where
  | arr (l : List ContentItem) : PropVal
  | inherited : PropVal
  | undef : PropVal
deriving DecidableEq, Repr

/-- Raw JavaScript property access `allSeries[s]` /
`collections.seriesContent[s]`: the own property when present, otherwise
the truthy inherited value for `Object.prototype` names, otherwise
`undefined`. -/
def readProp (gs : Groups) (s : String) : PropVal :=
  match gs with
  | [] => if s ∈ protoProps then .inherited else .undef
  | (k, l) :: rest => if k = s then .arr l else readProp rest s

/-- The full `if (!allSeries[seriesId]) allSeries[seriesId] = [];
allSeries[seriesId].push(item)` step: for a key with no own entry whose
name is inherited from `Object.prototype`, the truthy inherited value
skips the initialization and `.push` throws a TypeError. -/
def insertItemJS (gs : Groups) (key : String) (it : ContentItem) :
    Except String Groups :=
  match gs with
  | [] =>
    if key ∈ protoProps then
      .error "TypeError: allSeries[seriesId].push is not a function"
    else
      .ok [(key, [it])]
  | (k, l) :: rest =>
    if k = key then .ok ((k, l ++ [it]) :: rest)
    else
      match insertItemJS rest key it with
      | .error e => .error e
      | .ok rest2 => .ok ((k, l) :: rest2)

/-- The `seriesItems.forEach` grouping loop with the fallible `.push`
step: the first TypeError aborts the build. -/
def groupFoldJS : List ContentItem → Groups → Except String Groups
  | [], gs => .ok gs
  | it :: rest, gs =>
    match it.seriesId with
    | some s =>
      match insertItemJS gs s it with
      | .error e => .error e
      | .ok gs2 => groupFoldJS rest gs2
    | none => groupFoldJS rest gs

/-- The grouping loop started on the empty dictionary `allSeries = {}`. -/
def groupBySeriesJS (items : List ContentItem) : Except String Groups :=
  groupFoldJS items []

/-- The whole `seriesContent` collection callback with both TypeError
paths — undefined `tags` in the filter, and an `Object.prototype`-named
`seriesId` in the grouping loop. -/
def buildGroupsJS (items : List ContentItem) : Except String Groups :=
  match filterSeriesItems items with
  | .error e => .error e
  | .ok seriesItems =>
    match groupBySeriesJS seriesItems with
    | .error e => .error e
    | .ok allSeries => .ok (sortGroups allSeries)

/-- The `getPreviousInSeries` filter with the raw property access: for a
seriesId with no own group whose name is an `Object.prototype` property,
the `!seriesItems` guard sees a truthy inherited value and
`seriesItems.find` throws a TypeError. -/
def getPreviousInSeriesJS (part : Int) (seriesId : String) (groups : Groups) :
    Except String (Option ContentItem) :=
  match readProp groups seriesId with
  | .undef => .ok none
  | .inherited => .error "TypeError: seriesItems.find is not a function"
  | .arr seriesItems =>
    .ok (seriesItems.find? (fun it => it.part = some (part - 1)))

/-- The `getNextInSeries` filter with the raw property access; same
TypeError path as `getPreviousInSeriesJS`. -/
def getNextInSeriesJS (part : Int) (seriesId : String) (groups : Groups) :
    Except String (Option ContentItem) :=
  match readProp groups seriesId with
  | .undef => .ok none
  | .inherited => .error "TypeError: seriesItems.find is not a function"
  | .arr seriesItems =>
    .ok (seriesItems.find? (fun it => it.part = some (part + 1)))

deriving instance DecidableEq for Except

-- Sanity checks on the spec's example scenario.
example :
    buildGroups
      [⟨some "galactic-archives", .arr ["posts"], some 0, "intro"⟩,
       ⟨some "galactic-archives", .arr ["posts"], some 1, "setup"⟩,
       ⟨some "galactic-archives", .arr ["series"], none, "overview"⟩] =
    .ok [("galactic-archives",
      [⟨some "galactic-archives", .arr ["posts"], some 0, "intro"⟩,
       ⟨some "galactic-archives", .arr ["posts"], some 1, "setup"⟩])] := by
  decide

example :
    getNextInSeries 0 "galactic-archives"
      [("galactic-archives",
        [⟨some "galactic-archives", .arr ["posts"], some 0, "intro"⟩,
         ⟨some "galactic-archives", .arr ["posts"], some 1, "setup"⟩])] =
    some ⟨some "galactic-archives", .arr ["posts"], some 1, "setup"⟩ := by
  decide

example :
    getPreviousInSeries 0 "galactic-archives"
      [("galactic-archives",
        [⟨some "galactic-archives", .arr ["posts"], some 0, "intro"⟩])] =
    none := by
  decide

example : strIncludes "my-series-notes" "series" = true := by decide

example : strIncludes "posts" "series" = false := by decide

/-! ### Basic facts about the filter stage -/

instance : IsTrans ContentItem partLe :=
  ⟨fun _ _ _ hab hbc => le_trans hab hbc⟩

instance : IsTotal ContentItem partLe :=
  ⟨fun a b => le_total (effPart a) (effPart b)⟩

theorem keepB_truthy {it : ContentItem} (h : keepB it = true) :
    truthySeriesId it.seriesId = true ∧ tagsIncludes it.tags "series" = .ok false := by
  obtain ⟨sid, tags, p, body⟩ := it
  cases tags <;> simp_all [keepB, tagsIncludes]

theorem keepB_some_seriesId {it : ContentItem} (h : keepB it = true) :
    ∃ s, it.seriesId = some s ∧ s ≠ "" := by
  have h1 := (keepB_truthy h).1
  cases hsid : it.seriesId with
  | none => rw [hsid] at h1; simp [truthySeriesId] at h1
  | some s =>
    rw [hsid] at h1
    simp [truthySeriesId] at h1
    exact ⟨s, rfl, h1⟩

theorem keepItem_ok {it : ContentItem} {b : Bool} (h : keepItem it = .ok b) :
    b = keepB it := by
  obtain ⟨sid, tags, p, body⟩ := it
  unfold keepItem at h
  by_cases htr : truthySeriesId sid = true <;> cases tags <;>
    simp_all [keepB, tagsIncludes]

theorem filterSeriesItems_ok : ∀ {items l : List ContentItem},
    filterSeriesItems items = .ok l → l = items.filter keepB
  | [], l, h => by
    simp [filterSeriesItems] at h
    simp [h]
  | it :: rest, l, h => by
    unfold filterSeriesItems at h
    cases hk : keepItem it with
    | error e => rw [hk] at h; exact absurd h (by simp)
    | ok keep =>
      rw [hk] at h
      cases hr : filterSeriesItems rest with
      | error e => rw [hr] at h; exact absurd h (by simp)
      | ok tail =>
        rw [hr] at h
        have htail := filterSeriesItems_ok hr
        have hkeep := keepItem_ok hk
        simp at h
        subst htail hkeep
        rw [List.filter_cons, ← h]

theorem filterSeriesItems_isOk {items : List ContentItem}
    (h : ∀ it ∈ items, truthySeriesId it.seriesId = true → it.tags ≠ TagsVal.undef) :
    filterSeriesItems items = .ok (items.filter keepB) := by
  induction items with
  | nil => simp [filterSeriesItems]
  | cons it rest ih =>
    have hit := h it (by simp)
    have hrest := ih (fun x hx => h x (by simp [hx]))
    have hok : ∃ b, keepItem it = .ok b := by
      unfold keepItem
      by_cases htr : truthySeriesId it.seriesId = true
      · have hne := hit htr
        cases htags : it.tags with
        | undef => exact absurd htags hne
        | str s =>
          exact ⟨!(strIncludes s "series"), by simp [htr, tagsIncludes]⟩
        | arr ls =>
          exact ⟨!(ls.contains "series"), by simp [htr, tagsIncludes]⟩
      · exact ⟨false, by simp [htr]⟩
    obtain ⟨b, hb⟩ := hok
    have hbeq := keepItem_ok hb
    subst hbeq
    unfold filterSeriesItems
    rw [hb, hrest]
    by_cases hkb : keepB it = true <;> simp [hkb, List.filter_cons]

/-! ### Facts about the grouping stage -/

/-- Append a batch of items to an optional group: `none` stands for
the key being absent from the dictionary. -/
def optApp : Option (List ContentItem) → List ContentItem → Option (List ContentItem)
  | none, [] => none
  | none, a :: l => some (a :: l)
  | some g, l => some (g ++ l)

theorem optApp_snoc (o : Option (List ContentItem)) (l₁ : List ContentItem)
    (a : ContentItem) (l₂ : List ContentItem) :
    optApp o (l₁ ++ a :: l₂) = optApp (some ((o.getD []) ++ l₁ ++ [a])) l₂ := by
  cases o <;> cases l₁ <;> simp [optApp]

theorem optApp_cons (o : Option (List ContentItem)) (a : ContentItem)
    (l : List ContentItem) :
    optApp (some ((o.getD []) ++ [a])) l = optApp o (a :: l) := by
  cases o <;> simp [optApp]

theorem lookupGroup_insertItem_self (gs : Groups) (k : String) (it : ContentItem) :
    lookupGroup (insertItem gs k it) k = some ((lookupGroup gs k).getD [] ++ [it]) := by
  induction gs with
  | nil => simp [insertItem, lookupGroup]
  | cons kl rest ih =>
    obtain ⟨k', l⟩ := kl
    by_cases hk : k' = k
    · subst hk
      simp [insertItem, lookupGroup]
    · simp [insertItem, lookupGroup, hk, ih]

theorem lookupGroup_insertItem_ne (gs : Groups) (k : String) (it : ContentItem)
    (k' : String) (hne : k' ≠ k) :
    lookupGroup (insertItem gs k it) k' = lookupGroup gs k' := by
  induction gs with
  | nil => simp [insertItem, lookupGroup, Ne.symm hne]
  | cons kl rest ih =>
    obtain ⟨k0, l⟩ := kl
    by_cases hk0 : k0 = k
    · subst hk0
      simp [insertItem, lookupGroup, Ne.symm hne]
    · by_cases hk0' : k0 = k'
      · subst hk0'
        simp [insertItem, lookupGroup, hk0]
      · simp [insertItem, lookupGroup, hk0, hk0', ih]

theorem lookupGroup_groupFold (k : String) : ∀ (items : List ContentItem) (acc : Groups),
    lookupGroup
      (items.foldl
        (fun gs it =>
          match it.seriesId with
          | some s => insertItem gs s it
          | none => gs)
        acc) k
      = optApp (lookupGroup acc k)
          (items.filter (fun it => decide (it.seriesId = some k)))
  | [], acc => by
    cases h : lookupGroup acc k <;> simp [optApp, h]
  | it :: rest, acc => by
    rw [List.foldl_cons, lookupGroup_groupFold k rest, List.filter_cons]
    cases hsid : it.seriesId with
    | none => simp [hsid]
    | some s =>
      by_cases hk : s = k
      · simp only [Option.some.injEq, decide_eq_true_eq]
        rw [if_pos hk, hk, lookupGroup_insertItem_self]
        exact optApp_cons _ _ _
      · rw [lookupGroup_insertItem_ne _ _ _ _ (Ne.symm hk)]
        simp [hsid, hk]

theorem lookupGroup_groupBySeries (items : List ContentItem) (k : String) :
    lookupGroup (groupBySeries items) k
      = optApp none (items.filter (fun it => decide (it.seriesId = some k))) := by
  unfold groupBySeries
  rw [lookupGroup_groupFold]
  simp [lookupGroup]

theorem lookupGroup_sortGroups (gs : Groups) (k : String) :
    lookupGroup (sortGroups gs) k
      = (lookupGroup gs k).map (fun l => l.insertionSort partLe) := by
  induction gs with
  | nil => simp [sortGroups, lookupGroup]
  | cons kl rest ih =>
    obtain ⟨k', l⟩ := kl
    by_cases hk : k' = k
    · simp [sortGroups, lookupGroup, hk]
    · simp only [sortGroups, lookupGroup, List.map_cons, if_neg hk]
      simpa [sortGroups] using ih

theorem insertItem_forall (Q : ContentItem → String → Prop) (gs : Groups)
    (key : String) (it : ContentItem)
    (hgs : ∀ kl ∈ gs, ∀ x ∈ kl.2, Q x kl.1) (hit : Q it key) :
    ∀ kl ∈ insertItem gs key it, ∀ x ∈ kl.2, Q x kl.1 := by
  induction gs with
  | nil =>
    intro kl hkl x hx
    simp [insertItem] at hkl
    subst hkl
    simp at hx
    subst hx
    exact hit
  | cons kl0 rest ih =>
    obtain ⟨k0, l0⟩ := kl0
    by_cases hk0 : k0 = key
    · subst hk0
      intro kl hkl x hx
      simp [insertItem] at hkl
      rcases hkl with hkl | hkl
      · subst hkl
        simp at hx
        rcases hx with hx | hx
        · exact hgs (k0, l0) (by simp) x (by simpa using hx)
        · subst hx; exact hit
      · exact hgs kl (by simp [hkl]) x hx
    · intro kl hkl x hx
      simp [insertItem, hk0] at hkl
      rcases hkl with hkl | hkl
      · subst hkl
        exact hgs (k0, l0) (by simp) x hx
      · exact ih (fun kl h => hgs kl (by simp [h])) kl hkl x hx

theorem groupFold_forall (Q : ContentItem → String → Prop) :
    ∀ (items : List ContentItem) (acc : Groups),
      (∀ kl ∈ acc, ∀ x ∈ kl.2, Q x kl.1) →
      (∀ it ∈ items, ∀ s, it.seriesId = some s → Q it s) →
      ∀ kl ∈
        (items.foldl
          (fun gs it =>
            match it.seriesId with
            | some s => insertItem gs s it
            | none => gs)
          acc),
        ∀ x ∈ kl.2, Q x kl.1
  | [], acc, hacc, _ => by simpa using hacc
  | it :: rest, acc, hacc, hitems => by
    rw [List.foldl_cons]
    refine groupFold_forall Q rest _ ?_ (fun x hx s hs => hitems x (by simp [hx]) s hs)
    cases hsid : it.seriesId with
    | none => simpa [hsid] using hacc
    | some s =>
      simp only [hsid]
      exact insertItem_forall Q acc s it hacc (hitems it (by simp) s hsid)

theorem groupBySeries_forall (Q : ContentItem → String → Prop)
    (items : List ContentItem)
    (hitems : ∀ it ∈ items, ∀ s, it.seriesId = some s → Q it s) :
    ∀ kl ∈ groupBySeries items, ∀ x ∈ kl.2, Q x kl.1 :=
  groupFold_forall Q items [] (by simp) hitems

theorem mem_sortGroups {gs : Groups} {kl : String × List ContentItem}
    (h : kl ∈ sortGroups gs) :
    ∃ l0, (kl.1, l0) ∈ gs ∧ kl.2 = l0.insertionSort partLe := by
  unfold sortGroups at h
  obtain ⟨⟨k0, l0⟩, hmem, heq⟩ := List.mem_map.mp h
  exact ⟨l0, by simp [← heq, hmem], by simp [← heq]⟩

theorem buildGroups_ok_eq {items : List ContentItem} {gs : Groups}
    (h : buildGroups items = .ok gs) :
    gs = sortGroups (groupBySeries (items.filter keepB)) := by
  unfold buildGroups at h
  cases hf : filterSeriesItems items with
  | error e => rw [hf] at h; exact absurd h (by simp)
  | ok retained =>
    rw [hf] at h
    simp at h
    rw [← h, filterSeriesItems_ok hf]

theorem buildGroups_ok_lookup {items : List ContentItem} {gs : Groups}
    (h : buildGroups items = .ok gs) (k : String) :
    lookupGroup gs k
      = (optApp none
          ((items.filter keepB).filter (fun it => decide (it.seriesId = some k)))).map
        (fun l => l.insertionSort partLe) := by
  rw [buildGroups_ok_eq h, lookupGroup_sortGroups, lookupGroup_groupBySeries]

/-! ### Facts about `find?`-based queries -/

theorem find?_eq_head?_filter {α : Type} (p : α → Bool) :
    ∀ l : List α, l.find? p = (l.filter p).head?
  | [] => rfl
  | a :: l => by
    cases hpa : p a
    · rw [List.find?_cons_of_neg _ (by simp [hpa]),
        List.filter_cons_of_neg (by simp [hpa])]
      exact find?_eq_head?_filter p l
    · rw [List.find?_cons_of_pos _ hpa, List.filter_cons_of_pos hpa]
      rfl

theorem find?_unique {α : Type} (p : α → Bool) {l : List α} {a : α}
    (ha : a ∈ l) (hpa : p a = true)
    (huniq : ∀ b ∈ l, p b = true → b = a) : l.find? p = some a := by
  induction l with
  | nil => simp at ha
  | cons b rest ih =>
    cases hpb : p b with
    | true =>
      have hba : b = a := huniq b (by simp) hpb
      subst hba
      simp [List.find?_cons, hpb]
    | false =>
      have hamem : a ∈ rest := by
        rcases List.mem_cons.mp ha with h | h
        · subst h; rw [hpa] at hpb; exact absurd hpb (by simp)
        · exact h
      simp only [List.find?_cons, hpb]
      exact ih hamem (fun c hc hpc => huniq c (by simp [hc]) hpc)

/-! ### Bridging the raw-access model and the non-throwing region -/

theorem insertItemJS_ok (key : String) (it : ContentItem) (h : key ∉ protoProps) :
    ∀ gs : Groups, insertItemJS gs key it = .ok (insertItem gs key it)
  | [] => by simp [insertItemJS, insertItem, h]
  | (k, l) :: rest => by
    by_cases hk : k = key <;>
      simp [insertItemJS, insertItem, hk, insertItemJS_ok key it h rest]

theorem groupFoldJS_ok :
    ∀ (items : List ContentItem) (acc : Groups),
      (∀ x ∈ items, ∀ s, x.seriesId = some s → s ∉ protoProps) →
      groupFoldJS items acc =
        .ok (items.foldl
          (fun gs x =>
            match x.seriesId with
            | some s => insertItem gs s x
            | none => gs)
          acc)
  | [], _, _ => rfl
  | it :: rest, acc, h => by
    rw [List.foldl_cons]
    cases hsid : it.seriesId with
    | none =>
      simp only [groupFoldJS, hsid]
      exact groupFoldJS_ok rest acc (fun x hx s hs => h x (by simp [hx]) s hs)
    | some s =>
      have hs : s ∉ protoProps := h it (by simp) s hsid
      simp only [groupFoldJS, hsid, insertItemJS_ok s it hs acc]
      exact groupFoldJS_ok rest _ (fun x hx s2 hs2 => h x (by simp [hx]) s2 hs2)

theorem groupBySeriesJS_ok {items : List ContentItem}
    (h : ∀ x ∈ items, ∀ s, x.seriesId = some s → s ∉ protoProps) :
    groupBySeriesJS items = .ok (groupBySeries items) :=
  groupFoldJS_ok items [] h

theorem buildGroupsJS_ok_eq {items : List ContentItem}
    (h1 : ∀ it ∈ items, truthySeriesId it.seriesId = true → it.tags ≠ TagsVal.undef)
    (h2 : ∀ x ∈ items.filter keepB, ∀ s, x.seriesId = some s → s ∉ protoProps) :
    buildGroupsJS items = buildGroups items := by
  unfold buildGroupsJS buildGroups
  simp only [filterSeriesItems_isOk h1, groupBySeriesJS_ok h2]

theorem readProp_arr_iff {gs : Groups} {s : String} {l : List ContentItem} :
    readProp gs s = PropVal.arr l ↔ lookupGroup gs s = some l := by
  induction gs with
  | nil =>
    constructor
    · intro h
      by_cases hp : s ∈ protoProps <;> simp [readProp, hp] at h
    · intro h
      simp [lookupGroup] at h
  | cons kl rest ih =>
    obtain ⟨k, l0⟩ := kl
    by_cases hk : k = s <;> simp [readProp, lookupGroup, hk, ih]

theorem readProp_of_none {gs : Groups} {s : String} (h : lookupGroup gs s = none) :
    readProp gs s = if s ∈ protoProps then PropVal.inherited else PropVal.undef := by
  induction gs with
  | nil => rfl
  | cons kl rest ih =>
    obtain ⟨k, l⟩ := kl
    by_cases hk : k = s
    · simp [lookupGroup, hk] at h
    · simp only [lookupGroup, if_neg hk] at h
      simp [readProp, hk, ih h]

theorem getPreviousInSeriesJS_arr {p : Int} {s : String} {gs : Groups}
    {l : List ContentItem} (h : lookupGroup gs s = some l) :
    getPreviousInSeriesJS p s gs =
      .ok (l.find? (fun it => it.part = some (p - 1))) := by
  unfold getPreviousInSeriesJS
  rw [readProp_arr_iff.mpr h]

theorem getPreviousInSeriesJS_absent {p : Int} {s : String} {gs : Groups}
    (h : lookupGroup gs s = none) (hp : s ∉ protoProps) :
    getPreviousInSeriesJS p s gs = .ok none := by
  unfold getPreviousInSeriesJS
  rw [readProp_of_none h, if_neg hp]

theorem getPreviousInSeriesJS_proto {p : Int} {s : String} {gs : Groups}
    (h : lookupGroup gs s = none) (hp : s ∈ protoProps) :
    getPreviousInSeriesJS p s gs =
      .error "TypeError: seriesItems.find is not a function" := by
  unfold getPreviousInSeriesJS
  rw [readProp_of_none h, if_pos hp]

theorem getNextInSeriesJS_arr {p : Int} {s : String} {gs : Groups}
    {l : List ContentItem} (h : lookupGroup gs s = some l) :
    getNextInSeriesJS p s gs =
      .ok (l.find? (fun it => it.part = some (p + 1))) := by
  unfold getNextInSeriesJS
  rw [readProp_arr_iff.mpr h]

theorem getNextInSeriesJS_absent {p : Int} {s : String} {gs : Groups}
    (h : lookupGroup gs s = none) (hp : s ∉ protoProps) :
    getNextInSeriesJS p s gs = .ok none := by
  unfold getNextInSeriesJS
  rw [readProp_of_none h, if_neg hp]

theorem getNextInSeriesJS_proto {p : Int} {s : String} {gs : Groups}
    (h : lookupGroup gs s = none) (hp : s ∈ protoProps) :
    getNextInSeriesJS p s gs =
      .error "TypeError: seriesItems.find is not a function" := by
  unfold getNextInSeriesJS
  rw [readProp_of_none h, if_pos hp]

/-! ### Claims -/

/-- C5 counterexample: `"toString"` is not a key of the groups mapping,
yet `getPreviousInSeries` throws a TypeError instead of returning an
absent value — `collections.seriesContent["toString"]` is the truthy
inherited `Object.prototype.toString`, so the `!seriesItems` guard is
passed and `.find` is called on a function. -/
theorem c5_counterexample :
    lookupGroup
        [("galactic", [⟨some "galactic", .arr ["posts"], some 0, "zero"⟩])]
        "toString" = none ∧
    getPreviousInSeriesJS 1 "toString"
        [("galactic", [⟨some "galactic", .arr ["posts"], some 0, "zero"⟩])] =
      .error "TypeError: seriesItems.find is not a function" := by
  decide

/-- C5 (amended): `getPreviousInSeries p s groups` returns the member of
`groups[s]` whose `part` equals `p - 1` (the unique such member when
there is exactly one) and an absent value when no such member exists;
when `s` is not a key of `groups` it returns absent only if `s` is not
an `Object.prototype` property name, and throws a TypeError when it
is. -/
theorem c5_previous_spec (p : Int) (s : String) (gs : Groups) :
    (lookupGroup gs s = none → s ∉ protoProps →
      getPreviousInSeriesJS p s gs = .ok none) ∧
    (lookupGroup gs s = none → s ∈ protoProps →
      getPreviousInSeriesJS p s gs =
        .error "TypeError: seriesItems.find is not a function") ∧
    (∀ l, lookupGroup gs s = some l →
      (∀ it, getPreviousInSeriesJS p s gs = .ok (some it) →
        it ∈ l ∧ it.part = some (p - 1)) ∧
      ((∀ it ∈ l, it.part ≠ some (p - 1)) →
        getPreviousInSeriesJS p s gs = .ok none) ∧
      (∀ it ∈ l, it.part = some (p - 1) →
        (∀ x ∈ l, x.part = some (p - 1) → x = it) →
        getPreviousInSeriesJS p s gs = .ok (some it))) := by
  refine ⟨fun h hp => getPreviousInSeriesJS_absent h hp,
    fun h hp => getPreviousInSeriesJS_proto h hp, ?_⟩
  intro l hl
  refine ⟨?_, ?_, ?_⟩
  · intro it hit
    rw [getPreviousInSeriesJS_arr hl] at hit
    simp only [Except.ok.injEq] at hit
    refine ⟨List.mem_of_find?_eq_some hit, ?_⟩
    simpa using List.find?_some hit
  · intro hnone
    rw [getPreviousInSeriesJS_arr hl]
    refine congrArg Except.ok ?_
    rw [List.find?_eq_none]
    intro x hx
    simpa using hnone x hx
  · intro it hmem hpart huniq
    rw [getPreviousInSeriesJS_arr hl]
    exact congrArg Except.ok (find?_unique _ hmem (by simpa using hpart)
      (fun b hb hpb => huniq b hb (by simpa using hpb)))

/-- C5 witness: the unique item of part `p - 1` is returned; an unknown
non-prototype seriesId yields an absent value; the prototype name
`"valueOf"` with no own group yields the TypeError. -/
theorem c5_witness :
    getPreviousInSeriesJS 2 "galactic"
        [("galactic",
          [⟨some "galactic", .arr ["posts"], some 1, "one"⟩,
           ⟨some "galactic", .arr ["posts"], some 2, "two"⟩])] =
      .ok (some ⟨some "galactic", .arr ["posts"], some 1, "one"⟩) ∧
    getPreviousInSeriesJS 2 "unknown"
        [("galactic",
          [⟨some "galactic", .arr ["posts"], some 1, "one"⟩])] = .ok none ∧
    getPreviousInSeriesJS 2 "valueOf"
        [("galactic",
          [⟨some "galactic", .arr ["posts"], some 1, "one"⟩])] =
      .error "TypeError: seriesItems.find is not a function" := by
  refine ⟨?_, ?_, ?_⟩
  · exact ((c5_previous_spec 2 "galactic" _).2.2
      [⟨some "galactic", .arr ["posts"], some 1, "one"⟩,
       ⟨some "galactic", .arr ["posts"], some 2, "two"⟩] (by decide)).2.2
      ⟨some "galactic", .arr ["posts"], some 1, "one"⟩ (by decide) (by decide)
      (by decide)
  · exact (c5_previous_spec 2 "unknown" _).1 (by decide) (by decide)
  · exact (c5_previous_spec 2 "valueOf" _).2.1 (by decide) (by decide)

/-- C6 counterexample: `"__proto__"` is not a key of the groups mapping,
yet `getNextInSeries` throws a TypeError instead of returning an absent
value — the access yields the truthy inherited `Object.prototype`, so
the `!seriesItems` guard is passed and `.find` is called on a
non-array. -/
theorem c6_counterexample :
    lookupGroup
        [("galactic", [⟨some "galactic", .arr ["posts"], some 0, "zero"⟩])]
        "__proto__" = none ∧
    getNextInSeriesJS 5 "__proto__"
        [("galactic", [⟨some "galactic", .arr ["posts"], some 0, "zero"⟩])] =
      .error "TypeError: seriesItems.find is not a function" := by
  decide

/-- C6 (amended): `getNextInSeries p s groups` returns the member of
`groups[s]` whose `part` equals `p + 1` (the unique such member when
there is exactly one) and an absent value when no such member exists;
when `s` is not a key of `groups` it returns absent only if `s` is not
an `Object.prototype` property name, and throws a TypeError when it
is. -/
theorem c6_next_spec (p : Int) (s : String) (gs : Groups) :
    (lookupGroup gs s = none → s ∉ protoProps →
      getNextInSeriesJS p s gs = .ok none) ∧
    (lookupGroup gs s = none → s ∈ protoProps →
      getNextInSeriesJS p s gs =
        .error "TypeError: seriesItems.find is not a function") ∧
    (∀ l, lookupGroup gs s = some l →
      (∀ it, getNextInSeriesJS p s gs = .ok (some it) →
        it ∈ l ∧ it.part = some (p + 1)) ∧
      ((∀ it ∈ l, it.part ≠ some (p + 1)) →
        getNextInSeriesJS p s gs = .ok none) ∧
      (∀ it ∈ l, it.part = some (p + 1) →
        (∀ x ∈ l, x.part = some (p + 1) → x = it) →
        getNextInSeriesJS p s gs = .ok (some it))) := by
  refine ⟨fun h hp => getNextInSeriesJS_absent h hp,
    fun h hp => getNextInSeriesJS_proto h hp, ?_⟩
  intro l hl
  refine ⟨?_, ?_, ?_⟩
  · intro it hit
    rw [getNextInSeriesJS_arr hl] at hit
    simp only [Except.ok.injEq] at hit
    refine ⟨List.mem_of_find?_eq_some hit, ?_⟩
    simpa using List.find?_some hit
  · intro hnone
    rw [getNextInSeriesJS_arr hl]
    refine congrArg Except.ok ?_
    rw [List.find?_eq_none]
    intro x hx
    simpa using hnone x hx
  · intro it hmem hpart huniq
    rw [getNextInSeriesJS_arr hl]
    exact congrArg Except.ok (find?_unique _ hmem (by simpa using hpart)
      (fun b hb hpb => huniq b hb (by simpa using hpb)))

/-- C6 witness: the unique item of part `p + 1` is returned; an unknown
non-prototype seriesId yields an absent value; the prototype name
`"hasOwnProperty"` with no own group yields the TypeError. -/
theorem c6_witness :
    getNextInSeriesJS 0 "galactic"
        [("galactic",
          [⟨some "galactic", .arr ["posts"], some 0, "zero"⟩,
           ⟨some "galactic", .arr ["posts"], some 1, "one"⟩])] =
      .ok (some ⟨some "galactic", .arr ["posts"], some 1, "one"⟩) ∧
    getNextInSeriesJS 5 "unknown-series"
        [("galactic",
          [⟨some "galactic", .arr ["posts"], some 0, "zero"⟩])] = .ok none ∧
    getNextInSeriesJS 0 "hasOwnProperty"
        [("galactic",
          [⟨some "galactic", .arr ["posts"], some 0, "zero"⟩])] =
      .error "TypeError: seriesItems.find is not a function" := by
  refine ⟨?_, ?_, ?_⟩
  · exact ((c6_next_spec 0 "galactic" _).2.2
      [⟨some "galactic", .arr ["posts"], some 0, "zero"⟩,
       ⟨some "galactic", .arr ["posts"], some 1, "one"⟩] (by decide)).2.2
      ⟨some "galactic", .arr ["posts"], some 1, "one"⟩ (by decide) (by decide)
      (by decide)
  · exact (c6_next_spec 5 "unknown-series" _).1 (by decide) (by decide)
  · exact (c6_next_spec 0 "hasOwnProperty" _).2.1 (by decide) (by decide)

/-- C7: `getSeriesOverview s overviews` returns the first item in the
supplied order whose `seriesId` equals `s`, and an absent value when no
item matches. -/
theorem c7_overview_spec (s : String) (ov : List ContentItem) :
    (getSeriesOverview s ov = none ↔ ∀ it ∈ ov, it.seriesId ≠ some s) ∧
    (∀ it, getSeriesOverview s ov = some it →
      it.seriesId = some s ∧
      ∃ l1 l2, ov = l1 ++ it :: l2 ∧ ∀ x ∈ l1, x.seriesId ≠ some s) := by
  constructor
  · rw [getSeriesOverview, List.find?_eq_none]
    constructor
    · intro h it hit
      simpa using h it hit
    · intro h it hit
      simpa using h it hit
  · intro it hit
    rw [getSeriesOverview, List.find?_eq_some] at hit
    obtain ⟨hsid, l1, l2, hsplit, hbefore⟩ := hit
    refine ⟨by simpa using hsid, l1, l2, hsplit, ?_⟩
    intro x hx
    simpa using hbefore x hx

/-- C7 witness: among two overview items sharing the seriesId, the first
in the supplied order is returned; an unmatched seriesId yields an
absent value. -/
theorem c7_witness :
    ((⟨some "galactic", .arr ["series"], none, "landing-a"⟩ : ContentItem).seriesId
        = some "galactic" ∧
      ∃ l1 l2,
        [(⟨some "galactic", .arr ["series"], none, "landing-a"⟩ : ContentItem),
         ⟨some "galactic", .arr ["series"], none, "landing-b"⟩] =
          l1 ++ (⟨some "galactic", .arr ["series"], none, "landing-a"⟩ : ContentItem) :: l2 ∧
        ∀ x ∈ l1, x.seriesId ≠ some "galactic") ∧
    getSeriesOverview "other"
      [⟨some "galactic", .arr ["series"], none, "landing-a"⟩] = none := by
  constructor
  · exact (c7_overview_spec "galactic"
      [⟨some "galactic", .arr ["series"], none, "landing-a"⟩,
       ⟨some "galactic", .arr ["series"], none, "landing-b"⟩]).2
      ⟨some "galactic", .arr ["series"], none, "landing-a"⟩ (by decide)
  · exact (c7_overview_spec "other"
      [⟨some "galactic", .arr ["series"], none, "landing-a"⟩]).1.mpr (by decide)

/-- C8: `buildGroups` is deterministic and idempotent over its input — it
is a pure function, so two calls on structurally equal input collections
yield structurally equal mappings. -/
theorem c8_deterministic (items1 items2 : List ContentItem)
    (h : items1 = items2) : buildGroups items1 = buildGroups items2 := by
  rw [h]

/-- C8 witness: two calls on the same concrete input agree. -/
theorem c8_witness :
    buildGroups [⟨some "galactic", .arr ["posts"], some 1, "one"⟩] =
      buildGroups [⟨some "galactic", .arr ["posts"], some 1, "one"⟩] :=
  c8_deterministic _ _ rfl

/-- C9: when `tags` is a single string, the exclusion test of
`buildGroups` is substring containment — an item whose tags string
contains `"series"` merely as a substring (here `"my-series-notes"`) is
excluded from every group although that string is not the exact tag
label `"series"`. -/
theorem c9_substring_exclusion :
    strIncludes "my-series-notes" "series" = true ∧
    "my-series-notes" ≠ "series" ∧
    buildGroups
      [⟨some "galactic", .str "my-series-notes", some 3, "post3"⟩] = .ok [] := by
  decide

/-- C10: when several members of `groups[s]` have the sought part value,
both lookups return exactly the earliest match in the group's sequence
(the head of the filtered sequence), one result, never an error. -/
theorem c10_first_match (p : Int) (s : String) (gs : Groups)
    (l : List ContentItem) (h : lookupGroup gs s = some l) :
    getNextInSeries p s gs =
      (l.filter (fun it => it.part = some (p + 1))).head? ∧
    getPreviousInSeries p s gs =
      (l.filter (fun it => it.part = some (p - 1))).head? := by
  rw [getNextInSeries, getPreviousInSeries, h]
  exact ⟨find?_eq_head?_filter _ _, find?_eq_head?_filter _ _⟩

/-- C10 witness: with two items of part 1 in the group, `getNextInSeries 0`
returns the one appearing earliest in the sequence. -/
theorem c10_witness :
    getNextInSeries 0 "galactic"
        [("galactic",
          [⟨some "galactic", .arr ["posts"], some 1, "first-one"⟩,
           ⟨some "galactic", .arr ["posts"], some 1, "second-one"⟩])] =
      ([(⟨some "galactic", .arr ["posts"], some 1, "first-one"⟩ : ContentItem),
        ⟨some "galactic", .arr ["posts"], some 1, "second-one"⟩].filter
          (fun it => it.part = some (0 + 1))).head? :=
  (c10_first_match 0 "galactic" _
    [⟨some "galactic", .arr ["posts"], some 1, "first-one"⟩,
     ⟨some "galactic", .arr ["posts"], some 1, "second-one"⟩] (by decide)).1

/-- C2: in the mapping built by `buildGroups`, every group's sequence is
sorted non-decreasingly by `part`, an absent `part` comparing as `0`. -/
theorem c2_groups_sorted {items : List ContentItem} {gs : Groups}
    (h : buildGroups items = .ok gs) :
    ∀ kl ∈ gs, kl.2.Pairwise (fun a b => effPart a ≤ effPart b) := by
  intro kl hkl
  rw [buildGroups_ok_eq h] at hkl
  obtain ⟨l0, _, heq⟩ := mem_sortGroups hkl
  rw [heq]
  exact List.sorted_insertionSort partLe l0

/-- C2 witness: a group built from out-of-order parts (with one absent
part) comes out sorted by effective part. -/
theorem c2_witness :
    List.Pairwise (fun a b => effPart a ≤ effPart b)
      [⟨some "galactic", .arr ["posts"], none, "no-part"⟩,
       ⟨some "galactic", .arr ["posts"], some 2, "two"⟩,
       ⟨some "galactic", .arr ["posts"], some 5, "five"⟩] :=
  c2_groups_sorted
    (by decide :
      buildGroups
        [⟨some "galactic", .arr ["posts"], some 5, "five"⟩,
         ⟨some "galactic", .arr ["posts"], some 2, "two"⟩,
         ⟨some "galactic", .arr ["posts"], none, "no-part"⟩] =
      .ok [("galactic",
        [⟨some "galactic", .arr ["posts"], none, "no-part"⟩,
         ⟨some "galactic", .arr ["posts"], some 2, "two"⟩,
         ⟨some "galactic", .arr ["posts"], some 5, "five"⟩])])
    ("galactic",
      [⟨some "galactic", .arr ["posts"], none, "no-part"⟩,
       ⟨some "galactic", .arr ["posts"], some 2, "two"⟩,
       ⟨some "galactic", .arr ["posts"], some 5, "five"⟩])
    (by decide)

/-- C3 counterexample: the group of `"galactic"` holds exactly one item,
which has no `part` value (and so no other item has effective part 0),
yet `getPreviousInSeries 1 "galactic"` returns an absent value rather
than that item: the `part - 1` lookup compares the raw `part` by strict
equality instead of defaulting it to 0. -/
theorem c3_counterexample :
    (⟨some "galactic", .arr ["posts"], none, "intro"⟩ : ContentItem).part = none ∧
    getPreviousInSeries 1 "galactic"
      [("galactic", [⟨some "galactic", .arr ["posts"], none, "intro"⟩])] = none := by
  decide

/-- C3 (amended): a missing `part` is treated as `0` only in the sort
comparator of `buildGroups` (`effPart`); the previous/next lookups use
strict equality on the raw `part`, so any item returned by
`getPreviousInSeries p s groups` carries the literal part value `p - 1`,
and an item with an absent `part` is never returned. -/
theorem c3_strict_part_lookup :
    (∀ (p : Int) (s : String) (gs : Groups) (it : ContentItem),
        getPreviousInSeries p s gs = some it → it.part = some (p - 1)) ∧
    (∀ it : ContentItem, it.part = none → effPart it = 0) := by
  constructor
  · intro p s gs it hit
    rw [getPreviousInSeries] at hit
    cases hl : lookupGroup gs s with
    | none => rw [hl] at hit; exact absurd hit (by simp)
    | some l =>
      rw [hl] at hit
      simpa using List.find?_some hit
  · intro it h
    simp [effPart, h]

/-- C3 witness: an item with the literal part value `0` is what
`getPreviousInSeries 1` returns, and its raw part is `some (1 - 1)`;
a part-less item has effective part 0. -/
theorem c3_witness :
    (⟨some "galactic", .arr ["posts"], some 0, "zero"⟩ : ContentItem).part
        = some (1 - 1) ∧
    effPart ⟨some "galactic", .arr ["posts"], none, "intro"⟩ = 0 :=
  ⟨c3_strict_part_lookup.1 1 "galactic"
      [("galactic", [⟨some "galactic", .arr ["posts"], some 0, "zero"⟩])]
      ⟨some "galactic", .arr ["posts"], some 0, "zero"⟩ (by decide),
   c3_strict_part_lookup.2 ⟨some "galactic", .arr ["posts"], none, "intro"⟩ rfl⟩

/-- C4 counterexample: two collections the operation rejects — an item
with a truthy `seriesId` but no `tags` value (`tags.includes` is a
TypeError on `undefined`), and an item whose `seriesId` is the
`Object.prototype` name `"toString"` (the truthy inherited value skips
the `if (!allSeries[seriesId])` initialization and `.push` throws). -/
theorem c4_counterexample :
    (buildGroupsJS [⟨some "galactic", TagsVal.undef, some 1, "post"⟩]).isOk
      = false ∧
    (buildGroupsJS
      [⟨some "toString", .arr ["posts"], some 1, "proto-named"⟩]).isOk
      = false := by
  decide

/-- C4 (amended): `buildGroups` raises no error on any collection in
which every item with a truthy `seriesId` has a defined `tags` value and
no retained item's `seriesId` is an `Object.prototype` property name —
the two TypeError paths — and the empty input yields the empty
mapping. -/
theorem c4_no_failure (items : List ContentItem)
    (h1 : ∀ it ∈ items, truthySeriesId it.seriesId = true → it.tags ≠ TagsVal.undef)
    (h2 : ∀ it ∈ items, keepB it = true →
      ∀ s, it.seriesId = some s → s ∉ protoProps) :
    (buildGroupsJS items).isOk = true ∧ buildGroupsJS [] = .ok [] := by
  have hproto : ∀ x ∈ items.filter keepB, ∀ s, x.seriesId = some s →
      s ∉ protoProps := by
    intro x hx s hs
    have hm := List.mem_filter.mp hx
    exact h2 x hm.1 hm.2 s hs
  constructor
  · rw [buildGroupsJS_ok_eq h1 hproto]
    unfold buildGroups
    rw [filterSeriesItems_isOk h1]
    rfl
  · rfl

/-- C4 witness: a well-formed one-item collection builds successfully. -/
theorem c4_witness :
    (buildGroupsJS [⟨some "galactic", .arr ["posts"], some 1, "one"⟩]).isOk
        = true ∧
      buildGroupsJS [] = .ok [] :=
  c4_no_failure _ (by decide) (by decide)

/-- C1 counterexample: an item whose `seriesId` is present but the empty
string (and whose tag list does not include `"series"`) is retained by
the claim's filter, yet `buildGroups` drops it — `item.data.seriesId &&`
is a JavaScript truthiness test and `""` is falsy, so the output mapping
is empty. -/
theorem c1_counterexample :
    (⟨some "", .arr ["posts"], some 1, "empty-sid"⟩ : ContentItem).seriesId ≠ none ∧
    tagsIncludes (TagsVal.arr ["posts"]) "series" = .ok false ∧
    buildGroups [⟨some "", .arr ["posts"], some 1, "empty-sid"⟩] = .ok [] := by
  decide

/-- C1 (amended): on every input on which `buildGroups` succeeds, it
retains exactly the items whose `seriesId` is truthy (present and
non-empty) and whose `tags` value does not include `"series"` under the
code's containment test (`keepB`): every group member is such a retained
input item lying in the group keyed by its own `seriesId`, no group
member's tags include `"series"`, and every retained item appears in the
group keyed by its `seriesId`. -/
theorem c1_retention {items : List ContentItem} {gs : Groups}
    (h : buildGroups items = .ok gs) :
    (∀ kl ∈ gs, ∀ it ∈ kl.2,
        it ∈ items ∧ keepB it = true ∧ it.seriesId = some kl.1 ∧
        tagsIncludes it.tags "series" = .ok false) ∧
    (∀ it ∈ items, keepB it = true →
      ∀ k, it.seriesId = some k → ∃ l, lookupGroup gs k = some l ∧ it ∈ l) := by
  constructor
  · intro kl hkl it hit
    rw [buildGroups_ok_eq h] at hkl
    obtain ⟨l0, hl0, heq⟩ := mem_sortGroups hkl
    rw [heq] at hit
    have hit0 : it ∈ l0 := (List.mem_insertionSort partLe).mp hit
    refine groupBySeries_forall
      (fun x k => x ∈ items ∧ keepB x = true ∧ x.seriesId = some k ∧
        tagsIncludes x.tags "series" = .ok false)
      (items.filter keepB) ?_ (kl.1, l0) hl0 it hit0
    intro x hx s hs
    have hxi := List.mem_filter.mp hx
    exact ⟨hxi.1, hxi.2, hs, (keepB_truthy hxi.2).2⟩
  · intro it hmem hkeep k hk
    have hlk := buildGroups_ok_lookup h k
    have hitf : it ∈ (items.filter keepB).filter
        (fun x => decide (x.seriesId = some k)) :=
      List.mem_filter.mpr ⟨List.mem_filter.mpr ⟨hmem, hkeep⟩, by simp [hk]⟩
    cases hf2 : (items.filter keepB).filter (fun x => decide (x.seriesId = some k)) with
    | nil => rw [hf2] at hitf; simp at hitf
    | cons a t =>
      rw [hf2] at hlk hitf
      refine ⟨(a :: t).insertionSort partLe, by simpa [optApp] using hlk, ?_⟩
      exact (List.mem_insertionSort partLe).mpr hitf

/-- C1 witness: on the spec's example scenario the overview item tagged
`"series"` is excluded and the two numbered posts land in the group
keyed by their seriesId. -/
theorem c1_witness :
    ((⟨some "galactic", .arr ["posts"], some 0, "intro"⟩ : ContentItem)
        ∈ [(⟨some "galactic", .arr ["posts"], some 0, "intro"⟩ : ContentItem),
           ⟨some "galactic", .arr ["series"], none, "overview"⟩] ∧
      keepB ⟨some "galactic", .arr ["posts"], some 0, "intro"⟩ = true ∧
      (⟨some "galactic", .arr ["posts"], some 0, "intro"⟩ : ContentItem).seriesId
        = some "galactic" ∧
      tagsIncludes (TagsVal.arr ["posts"]) "series" = .ok false) ∧
    (∃ l,
      lookupGroup
        [("galactic", [⟨some "galactic", .arr ["posts"], some 0, "intro"⟩])]
        "galactic" = some l ∧
      (⟨some "galactic", .arr ["posts"], some 0, "intro"⟩ : ContentItem) ∈ l) := by
  constructor
  · exact (c1_retention
      (by decide :
        buildGroups
          [⟨some "galactic", .arr ["posts"], some 0, "intro"⟩,
           ⟨some "galactic", .arr ["series"], none, "overview"⟩] =
        .ok [("galactic", [⟨some "galactic", .arr ["posts"], some 0, "intro"⟩])])).1
      ("galactic", [⟨some "galactic", .arr ["posts"], some 0, "intro"⟩]) (by decide)
      ⟨some "galactic", .arr ["posts"], some 0, "intro"⟩ (by decide)
  · exact (c1_retention
      (by decide :
        buildGroups
          [⟨some "galactic", .arr ["posts"], some 0, "intro"⟩,
           ⟨some "galactic", .arr ["series"], none, "overview"⟩] =
        .ok [("galactic", [⟨some "galactic", .arr ["posts"], some 0, "intro"⟩])])).2
      ⟨some "galactic", .arr ["posts"], some 0, "intro"⟩ (by decide) (by decide)
      "galactic" (by decide)
